import Mathlib

/-!
Shallow embedding of the Frontend-Generator application (src/src/App.jsx).

The application is a single React component.  Its handlers
(`handleGenerateClick`, `handleSelectChat`, `handleDeleteChat`,
`handleNewChat`, `handleCopyClick`, `handleShareClick`) and its three
effects (share-link page load, persistence of `chats`, preview projection)
are embedded as pure functions on an explicit `AppState`.  JavaScript
strings are modelled as Lean `String`s (sequences of Unicode scalar
values); machine-level UTF-16 code-unit details play no role in any
property below.  The fetch of the remote completion endpoint is modelled
by an explicit `FetchResult` input.  The preview iframe, clipboard and
toast timers have no bearing on the verified properties; clipboard writes
are modelled as the optional second component of the copy/share handlers.
-/

namespace FrontendGen

/-- Message roles, as the string role field of App.jsx messages. -/
inductive Role where
  | system
  | user
  | assistant
deriving DecidableEq, Repr

/-- `{ role, content }` message records of App.jsx. -/
structure Message where
  role : Role
  content : String
deriving DecidableEq, Repr

/-- `{ id, title, history }` chat records of App.jsx.  The uuid string id
is modelled as a `Nat`. -/
structure Chat where
  id : Nat
  title : String
  history : List Message
deriving DecidableEq, Repr

/-- The framework selector state (`'html' | 'react' | 'vue'`). -/
inductive Framework where
  | html
  | react
  | vue
deriving DecidableEq, Repr

/-- The string value of the framework selector. -/
def frameworkName : Framework → String
  | Framework.html => "html"
  | Framework.react => "react"
  | Framework.vue => "vue"

/-- `framework.toUpperCase()` on the three selector values. -/
def frameworkUpper : Framework → String
  | Framework.html => "HTML"
  | Framework.react => "REACT"
  | Framework.vue => "VUE"

/-- JavaScript `String.prototype.startsWith`, over the character model. -/
def strStartsWith (s pre : String) : Bool := pre.data.isPrefixOf s.data

/-- JavaScript `String.prototype.substring(n)`, over the character model. -/
def strDrop (s : String) (n : Nat) : String := ⟨s.data.drop n⟩

/-- JavaScript `String.prototype.substring(0, n)`, over the character model. -/
def strTake (s : String) (n : Nat) : String := ⟨s.data.take n⟩

/-- The React state of the `App` component, together with the
`localStorage` cell under the key `ai-frontend-chats`.  The stored JSON
blob is modelled structurally as the `List Chat` it deserialises to
(`JSON.stringify`/`JSON.parse` round-trip); `none` models an absent key. -/
structure AppState where
  prompt : String
  generatedCode : String
  isLoading : Bool
  error : Option String
  showToast : Bool
  toastMessage : String
  chats : List Chat
  activeChatId : Option Nat
  framework : Framework
  storage : Option (List Chat)
deriving DecidableEq, Repr

/-- Modelled from the spec: the lz-string compress/decompress pair used by
App.jsx (`compressToEncodedURIComponent` / `decompressFromEncodedURIComponent`)
is a library whose source is not part of this repository.  Section 4.3
requires a reversible, URL-safe, lossless text transform
("compress-then-URL-encode or equivalent").  The model encodes each
character's scalar value in four digits over a URI-safe 64-character
alphabet; decoding validates digits, grouping and scalar range and fails
softly with `none`. -/
def keyChars : List Char :=
  "ABCDEFGHIJKLMNOPQRSTUVWXYZabcdefghijklmnopqrstuvwxyz0123456789+-".toList

/-- The digit character for a value `n < 64` of the URI-safe alphabet. -/
def digitChar (n : Nat) : Char := keyChars.getD n 'A'

/-- Position of a character in an alphabet, `none` when absent. -/
def charIndex : List Char → Char → Option Nat
  | [], _ => none
  | a :: as, c => if c = a then some 0 else (charIndex as c).map (· + 1)

/-- The digit value of a character of the URI-safe alphabet. -/
def decodeDigit (c : Char) : Option Nat := charIndex keyChars c

/-- Four-digit big-endian encoding of one character's scalar value. -/
def encodeChar (c : Char) : List Char :=
  [digitChar (c.toNat / 262144), digitChar (c.toNat / 4096 % 64),
   digitChar (c.toNat / 64 % 64), digitChar (c.toNat % 64)]

/-- Decode one four-digit group back to a character; fails on a non-digit
or on a value that is not a Unicode scalar value. -/
def decodeGroup (a b c d : Char) : Option Char :=
  (decodeDigit a).bind fun x =>
    (decodeDigit b).bind fun y =>
      (decodeDigit c).bind fun z =>
        (decodeDigit d).bind fun w =>
          let n := ((x * 64 + y) * 64 + z) * 64 + w
          if h : n.isValidChar then some (Char.ofNatAux n h) else none

/-- Character-list level encoder. -/
def encodeList : List Char → List Char
  | [] => []
  | c :: cs => encodeChar c ++ encodeList cs

/-- Character-list level decoder; fails softly on malformed input. -/
def decodeList : List Char → Option (List Char)
  | [] => some []
  | a :: b :: c :: d :: rest =>
    (decodeGroup a b c d).bind fun ch =>
      (decodeList rest).map fun tail => ch :: tail
  | _ => none

/-- Modelled from the spec: `encode` of the Share Codec (section 4.3),
standing for lz-string's `compressToEncodedURIComponent`. -/
def encode (s : String) : String := ⟨encodeList s.data⟩

/-- Modelled from the spec: `decode` of the Share Codec (section 4.3),
standing for lz-string's `decompressFromEncodedURIComponent`; `none` is
the "no value" outcome. -/
def decode (s : String) : Option String := (decodeList s.data).map String.mk

/-- The backtick character (U+0060), written via its code point. -/
def btick : Char := Char.ofNat 96

/-- The regex-character-class `\s` restricted to its ASCII members (the
only whitespace occurring in the modelled strings). -/
def isJsSpace (c : Char) : Bool :=
  c = ' ' || c = '\t' || c = '\n' || c = '\r' || c = '\x0b' || c = '\x0c'

/-- The fence-language alternatives of the App.jsx cleanup regex, in the
regex's left-to-right preference order. -/
def fenceLangs : List (List Char) :=
  ["jsx".toList, "javascript".toList, "js".toList, "html".toList,
   "css".toList, "vue".toList]

/-- Consume a fence-language word if one literally follows. -/
def consumeLang (l : List Char) : List Char :=
  match fenceLangs.find? (fun lang => lang.isPrefixOf l) with
  | some lang => l.drop lang.length
  | none => l

/-- One global left-to-right replace-by-empty pass of the App.jsx fence
regex: at a triple backtick, consume it, an optional language word, and a
greedy whitespace run; fuel bounds the recursion by the input length. -/
def stripFencesAux : Nat → List Char → List Char
  | 0, l => l
  | _ + 1, [] => []
  | fuel + 1, c :: cs =>
    if c = btick then
      match cs with
      | c2 :: c3 :: rest =>
        if c2 = btick && c3 = btick then
          stripFencesAux fuel ((consumeLang rest).dropWhile isJsSpace)
        else c :: stripFencesAux fuel cs
      | _ => c :: stripFencesAux fuel cs
    else c :: stripFencesAux fuel cs

/-- JavaScript `String.prototype.trim` on the modelled character set. -/
def jsTrim (l : List Char) : List Char :=
  ((l.dropWhile isJsSpace).reverse.dropWhile isJsSpace).reverse

/-- `code.replace(fenceRegex, '').trim()` of the App.jsx success path. -/
def cleanCode (s : String) : String :=
  ⟨jsTrim (stripFencesAux s.data.length s.data)⟩

/-- `err.message.split('Body:')[0]`: the part of the message before the
first occurrence of the pattern, the whole message when absent. -/
def takeUntilPat (pat : List Char) : List Char → List Char
  | [] => []
  | c :: cs => if pat.isPrefixOf (c :: cs) then [] else c :: takeUntilPat pat cs

/-- The user-visible error message derived from a thrown message. -/
def beforeBody (msg : String) : String := ⟨takeUntilPat "Body:".toList msg.data⟩

/-- `prompt.length > 30 ? prompt.substring(0, 30) + '...' : prompt`. -/
def mkTitle (p : String) : String :=
  if p.length > 30 then strTake p 30 ++ "..." else p

/-- Outcome of the awaited `fetch` of the remote completion endpoint:
either a thrown network/parse error, or a settled response with its
status, body text and optional `choices[0].message.content` field. -/
inductive FetchResult where
  | netErr (msg : String)
  | resp (status : Nat) (body : String) (content : Option String)
deriving DecidableEq, Repr

/-- The try-block of `handleGenerateClick` up to the point where a usable
completion is in hand: non-2xx statuses and missing or empty content
fields become the thrown error messages of the source. -/
def outcome : FetchResult → Except String String
  | FetchResult.netErr msg => Except.error msg
  | FetchResult.resp status body content =>
    if 200 ≤ status ∧ status < 300 then
      match content with
      | some code =>
        if code ≠ "" then Except.ok code
        else Except.error "Received an empty or invalid response from the API."
      | none => Except.error "Received an empty or invalid response from the API."
    else
      Except.error ("API request failed with status: " ++ toString status ++
        ". Body: " ++ body)

/-- `handleGenerateClick`, with the presence of the API key, the uuid for
a possibly-created chat and the fetch outcome as explicit inputs. -/
def generateStep (hasKey : Bool) (freshId : Nat) (fr : FetchResult)
    (st : AppState) : AppState :=
  if !hasKey then
    { st with error := some "API Key is not configured. The app must be deployed with an environment variable." }
  else if st.prompt = "" then
    { st with error := some "Please enter a prompt!" }
  else
    let st1 : AppState :=
      { st with isLoading := true,
                generatedCode := "// Generating " ++ frameworkUpper st.framework ++ " code, please wait...",
                error := none }
    let res : AppState × Nat × List Message :=
      match st1.activeChatId with
      | none =>
        let newChat : Chat := { id := freshId, title := mkTitle st1.prompt, history := [] }
        ({ st1 with activeChatId := some freshId, chats := newChat :: st1.chats },
         freshId, [])
      | some cid =>
        match st1.chats.find? (fun c => c.id == cid) with
        | some activeChat => (st1, cid, activeChat.history)
        | none => (st1, cid, [])
    let st2 := res.1
    let currentChatId := res.2.1
    let newUserMessage : Message := { role := Role.user, content := st2.prompt }
    let updatedHistoryForApi := res.2.2 ++ [newUserMessage]
    let st3 : AppState :=
      match outcome fr with
      | Except.ok code =>
        let cleanedCode := cleanCode code
        let newAssistantMessage : Message := { role := Role.assistant, content := cleanedCode }
        { st2 with generatedCode := cleanedCode,
                   chats := st2.chats.map (fun chat =>
                     if chat.id == currentChatId then
                       { chat with history := updatedHistoryForApi ++ [newAssistantMessage] }
                     else chat),
                   prompt := "" }
      | Except.error msg =>
        { st2 with error := some (beforeBody msg),
                   generatedCode := "// Error: " ++ msg }
    { st3 with isLoading := false }

/-- One user-triggered generation round: type the prompt, click generate. -/
def genRound (p : String) (fr : FetchResult) (freshId : Nat) (st : AppState) : AppState :=
  generateStep true freshId fr { st with prompt := p }

/-- A sequence of generation rounds, each with its prompt and the raw
completion content the remote returns (HTTP 200, nonempty body field). -/
def runRounds (f : Nat) : List (String × String) → AppState → AppState
  | [], st => st
  | (p, code) :: rest, st =>
    runRounds f rest (genRound p (FetchResult.resp 200 "" (some code)) f st)

/-- `handleNewChat`. -/
def handleNewChat (st : AppState) : AppState :=
  { st with activeChatId := none, prompt := "",
            generatedCode := "// Start a new chat by typing a prompt or choosing an example." }

/-- `handleSelectChat`. -/
def handleSelectChat (chatId : Nat) (st : AppState) : AppState :=
  match st.chats.find? (fun c => c.id == chatId) with
  | some chat =>
    let lastAssistantMessage := chat.history.reverse.find? (fun m => m.role == Role.assistant)
    { st with activeChatId := some chat.id,
              generatedCode :=
                match lastAssistantMessage with
                | some m => m.content
                | none => "// This chat is empty." }
  | none => st

/-- `handleDeleteChat`; the explicit `localStorage.setItem` of the source
writes the filtered list unconditionally. -/
def handleDeleteChat (chatId : Nat) (st : AppState) : AppState :=
  let updatedChats := st.chats.filter (fun c => !(c.id == chatId))
  let st1 : AppState := { st with chats := updatedChats, storage := some updatedChats }
  if st1.activeChatId = some chatId then handleNewChat st1 else st1

/-- `handleCopyClick`; the second component is the text written to the
clipboard, `none` when nothing is written. -/
def handleCopyClick (st : AppState) : AppState × Option String :=
  if st.generatedCode = "" || strStartsWith st.generatedCode "//" then (st, none)
  else
    ({ st with toastMessage := "Copied to clipboard!", showToast := true },
     some st.generatedCode)

/-- `handleShareClick`; the second component is the share URL written to
the clipboard, `none` when no share link is produced. -/
def handleShareClick (origin pathname : String) (st : AppState) : AppState × Option String :=
  if st.generatedCode = "" || strStartsWith st.generatedCode "//" then
    ({ st with toastMessage := "Nothing to share yet!", showToast := true }, none)
  else
    let compressedCode := encode st.generatedCode
    let shareUrl := origin ++ pathname ++ "#/share/" ++ compressedCode
    ({ st with toastMessage := "Share link copied to clipboard!", showToast := true },
     some shareUrl)

/-- The mount effect of App.jsx: a `#/share/<token>` fragment is decoded
(JavaScript truthiness skips both a null and an empty result), otherwise
the persisted chats are loaded. -/
def startupEffect (hash : String) (st : AppState) : AppState :=
  if strStartsWith hash "#/share/" then
    match decode (strDrop hash 8) with
    | some decompressedCode =>
      if decompressedCode ≠ "" then
        { st with generatedCode := decompressedCode,
                  toastMessage := "Shared code loaded!", showToast := true }
      else st
    | none => st
  else
    match st.storage with
    | some savedChats => { st with chats := savedChats }
    | none => st

/-- The `[chats]` effect of App.jsx: persist the chats list when nonempty. -/
def persistEffect (st : AppState) : AppState :=
  if st.chats.length > 0 then { st with storage := some st.chats } else st

/-- The initial React state, over a given initial storage cell. -/
def initState (storage : Option (List Chat)) : AppState :=
  { prompt := "", generatedCode := "// Your generated code will appear here...",
    isLoading := false, error := none, showToast := false, toastMessage := "",
    chats := [], activeChatId := none, framework := Framework.html,
    storage := storage }

/-- The session-mutating operations named by the spec's invariant: chat
creation during generation, chat selection, chat deletion, starting a new
chat. -/
inductive Step : AppState → AppState → Prop where
  | generate (hasKey : Bool) (f : Nat) (fr : FetchResult) (st : AppState) :
      Step st (generateStep hasKey f fr st)
  | select (cid : Nat) (st : AppState) : Step st (handleSelectChat cid st)
  | delete (cid : Nat) (st : AppState) : Step st (handleDeleteChat cid st)
  | newChat (st : AppState) : Step st (handleNewChat st)

/-- The Session invariant: an active chat id always denotes a chat of the
list, as an executable check. -/
def invariantB (st : AppState) : Bool :=
  match st.activeChatId with
  | none => true
  | some cid => st.chats.any (fun c => c.id == cid)

/-- The message list produced by a round sequence: per round one user
message with the prompt and one assistant message with the cleaned code. -/
def roundsMsgs : List (String × String) → List Message
  | [] => []
  | (p, code) :: rest =>
    Message.mk Role.user p :: Message.mk Role.assistant (cleanCode code) :: roundsMsgs rest

/-- Alternation user, assistant, user, assistant, ... starting with user. -/
def altUA : List Message → Bool
  | [] => true
  | u :: a :: t => u.role == Role.user && a.role == Role.assistant && altUA t
  | _ :: [] => false

/-- Concrete fixture: a freshly created chat. -/
def chatC2 : Chat := Chat.mk 7 "t" []

/-- Concrete fixture: a state whose only chat is active and empty. -/
def stC2 : AppState := { initState none with chats := [chatC2], activeChatId := some 7 }

/-- Concrete fixture: two successful generation rounds. -/
def roundsC2 : List (String × String) :=
  [("make a page", "<p>a</p>"), ("make it blue", "<p>b</p>")]

/-- Concrete fixture: a state with one active chat holding one round. -/
def stC3 : AppState :=
  { initState none with
      chats := [Chat.mk 3 "t" [Message.mk Role.user "u", Message.mk Role.assistant "<p>x</p>"]],
      activeChatId := some 3, generatedCode := "<p>x</p>" }

/-- Concrete fixture: a chat with two assistant messages. -/
def chatC7 : Chat :=
  Chat.mk 4 "t" [Message.mk Role.user "u1", Message.mk Role.assistant "first",
    Message.mk Role.user "u2", Message.mk Role.assistant "second"]

/-- Concrete fixture: a state holding the two-assistant chat. -/
def stC7 : AppState := { initState none with chats := [chatC7] }

/-- Concrete fixture: a state with two chats, the first active. -/
def stC8 : AppState :=
  { initState none with
      chats := [Chat.mk 1 "a" [], Chat.mk 2 "b" []],
      activeChatId := some 1, generatedCode := "<p>x</p>" }

/-- Concrete fixture: a state with one active chat for the invariant. -/
def stC9 : AppState :=
  { initState none with
      chats := [Chat.mk 5 "t" [Message.mk Role.user "u", Message.mk Role.assistant "c"]],
      activeChatId := some 5 }

/-- Concrete fixture: a persisted chat with one round. -/
def chatC6 : Chat := Chat.mk 0 "t" [Message.mk Role.user "u", Message.mk Role.assistant "<p>x</p>"]

/-- Concrete fixture: a session with one active chat, nothing stored yet. -/
def stC6 : AppState := { initState none with chats := [chatC6], activeChatId := some 0 }

/-! ## Share Codec lemmas -/

theorem charIndex_spec : ∀ (l : List Char) (c : Char) (d : Nat),
    charIndex l c = some d → l.getD d 'A' = c ∧ d < l.length := by
  intro l
  induction l with
  | nil => intro c d h; simp [charIndex] at h
  | cons a as ih =>
    intro c d h
    by_cases hc : c = a
    · simp [charIndex, hc] at h
      subst h
      simp [hc]
    · simp [charIndex, hc] at h
      obtain ⟨d', hd', rfl⟩ := h
      obtain ⟨h1, h2⟩ := ih c d' hd'
      constructor
      · simpa using h1
      · simpa using h2

theorem decodeDigit_digitChar : ∀ n, n < 64 → decodeDigit (digitChar n) = some n := by decide

theorem decodeDigit_spec (c : Char) (d : Nat) (h : decodeDigit c = some d) :
    digitChar d = c ∧ d < 64 := by
  obtain ⟨h1, h2⟩ := charIndex_spec keyChars c d h
  exact ⟨h1, by simpa [keyChars] using h2⟩

theorem char_toNat_lt (c : Char) : c.toNat < 1114112 := by
  have h : Nat.isValidChar c.toNat := c.valid
  rcases h with h | ⟨_, h⟩ <;> omega

theorem ofNatAux_toNat (c : Char) (h : Nat.isValidChar c.toNat) :
    Char.ofNatAux c.toNat h = c := by
  apply Char.ext
  apply UInt32.ext
  rfl

theorem decodeGroup_encodeChar (c : Char) :
    decodeGroup (digitChar (c.toNat / 262144)) (digitChar (c.toNat / 4096 % 64))
      (digitChar (c.toNat / 64 % 64)) (digitChar (c.toNat % 64)) = some c := by
  have hn : c.toNat < 1114112 := char_toNat_lt c
  have h3 : c.toNat / 262144 < 64 := by omega
  have h2 : c.toNat / 4096 % 64 < 64 := Nat.mod_lt _ (by omega)
  have h1 : c.toNat / 64 % 64 < 64 := Nat.mod_lt _ (by omega)
  have h0 : c.toNat % 64 < 64 := Nat.mod_lt _ (by omega)
  rw [decodeGroup, decodeDigit_digitChar _ h3, decodeDigit_digitChar _ h2,
      decodeDigit_digitChar _ h1, decodeDigit_digitChar _ h0]
  simp only [Option.bind]
  have he : ((c.toNat / 262144 * 64 + c.toNat / 4096 % 64) * 64 + c.toNat / 64 % 64) * 64
      + c.toNat % 64 = c.toNat := by omega
  simp only [he]
  have hv : Nat.isValidChar c.toNat := c.valid
  rw [dif_pos hv, ofNatAux_toNat c hv]

theorem decodeList_encodeList (l : List Char) : decodeList (encodeList l) = some l := by
  induction l with
  | nil => rfl
  | cons c cs ih =>
    show decodeList (encodeChar c ++ encodeList cs) = some (c :: cs)
    rw [encodeChar]
    show (decodeGroup _ _ _ _).bind _ = some (c :: cs)
    rw [decodeGroup_encodeChar c]
    simp only [Option.bind]
    have hap : ([] : List Char).append (encodeList cs) = encodeList cs := rfl
    rw [hap, ih]
    rfl

theorem decode_encode (s : String) : decode (encode s) = some s := by
  show (decodeList (encodeList s.data)).map String.mk = some s
  rw [decodeList_encodeList]
  rfl

theorem decodeGroup_spec (a b c d ch : Char) (h : decodeGroup a b c d = some ch) :
    encodeChar ch = [a, b, c, d] := by
  rw [decodeGroup] at h
  rcases hA : decodeDigit a with _ | x <;> rw [hA] at h <;> simp only [Option.bind] at h
  · exact absurd h (by simp)
  rcases hB : decodeDigit b with _ | y <;> rw [hB] at h <;> simp only [Option.bind] at h
  · exact absurd h (by simp)
  rcases hC : decodeDigit c with _ | z <;> rw [hC] at h <;> simp only [Option.bind] at h
  · exact absurd h (by simp)
  rcases hD : decodeDigit d with _ | w <;> rw [hD] at h <;> simp only [Option.bind] at h
  · exact absurd h (by simp)
  obtain ⟨ha', hxa⟩ := decodeDigit_spec a x hA
  obtain ⟨hb', hyb⟩ := decodeDigit_spec b y hB
  obtain ⟨hc', hzc⟩ := decodeDigit_spec c z hC
  obtain ⟨hd', hwd⟩ := decodeDigit_spec d w hD
  by_cases hv : (((x * 64 + y) * 64 + z) * 64 + w).isValidChar
  · rw [dif_pos hv] at h
    obtain rfl := Option.some.inj h
    have hn : (Char.ofNatAux (((x * 64 + y) * 64 + z) * 64 + w) hv).toNat
        = ((x * 64 + y) * 64 + z) * 64 + w := rfl
    rw [encodeChar, hn]
    have e3 : (((x * 64 + y) * 64 + z) * 64 + w) / 262144 = x := by omega
    have e2 : (((x * 64 + y) * 64 + z) * 64 + w) / 4096 % 64 = y := by omega
    have e1 : (((x * 64 + y) * 64 + z) * 64 + w) / 64 % 64 = z := by omega
    have e0 : (((x * 64 + y) * 64 + z) * 64 + w) % 64 = w := by omega
    rw [e3, e2, e1, e0, ha', hb', hc', hd']
  · rw [dif_neg hv] at h
    exact absurd h (by simp)

theorem decodeList_spec : ∀ (l m : List Char), decodeList l = some m → encodeList m = l := by
  intro l
  induction l using decodeList.induct with
  | case1 =>
    intro m h
    simp [decodeList] at h
    subst h
    rfl
  | case2 a b c d rest ih =>
    intro m h
    rw [decodeList] at h
    rcases hG : decodeGroup a b c d with _ | ch <;> rw [hG] at h <;> simp only [Option.bind] at h
    · exact absurd h (by simp)
    rcases hR : decodeList rest with _ | tail <;> rw [hR] at h <;> simp only [Option.map] at h
    · exact absurd h (by simp)
    obtain rfl := Option.some.inj h
    show encodeChar ch ++ encodeList tail = _
    rw [decodeGroup_spec a b c d ch hG, ih tail hR]
    rfl
  | case3 l h1 h2 =>
    intro m h
    rw [decodeList] at h
    · exact absurd h (by simp)
    · exact h1
    · exact h2

theorem decode_spec (t s : String) (h : decode t = some s) : encode s = t := by
  rw [decode] at h
  rcases hL : decodeList t.data with _ | m <;> rw [hL] at h <;> simp only [Option.map] at h
  · exact absurd h (by simp)
  obtain rfl := Option.some.inj h
  show String.mk (encodeList m) = t
  rw [decodeList_spec t.data m hL]

/-! ## State-machine helper lemmas -/

/-- A map that fixes every chat whose id differs from `f` fixes a list of such chats. -/
theorem map_keep_of_ne (cs : List Chat) (f : Nat) (g : Chat → Chat)
    (hg : ∀ c, c.id ≠ f → g c = c) (hcs : ∀ c ∈ cs, c.id ≠ f) : cs.map g = cs := by
  induction cs with
  | nil => rfl
  | cons a as ih =>
    rw [List.map_cons, hg a (hcs a (by simp)), ih (fun c hc => hcs c (by simp [hc]))]

/-- Shape of a successful generation round against an existing active chat. -/
theorem gen_success_shape (st : AppState) (f : Nat) (c : Chat) (cs : List Chat)
    (p code : String) (fr : FetchResult)
    (hp : p ≠ "") (hfr : outcome fr = Except.ok code)
    (hactive : st.activeChatId = some f) (hchats : st.chats = c :: cs)
    (hid : c.id = f) (hcs : ∀ c' ∈ cs, c'.id ≠ f) :
    genRound p fr f st =
      { st with prompt := "", isLoading := false, error := none,
                generatedCode := cleanCode code,
                chats := { c with history :=
                  c.history ++ [Message.mk Role.user p, Message.mk Role.assistant (cleanCode code)] } :: cs } := by
  have hfind : List.find? (fun ch => ch.id == f) (c :: cs) = some c := by
    rw [List.find?_cons_of_pos]
    simp [hid]
  have hbeq : (c.id == f) = true := by simp [hid]
  simp only [genRound, generateStep, Bool.not_true, Bool.false_eq_true, if_false, hp, if_neg,
    hactive, hchats, hfr, hfind, hbeq, List.map_cons, if_true]
  simp only [List.append_assoc, List.cons_append, List.nil_append, AppState.mk.injEq,
    List.cons.injEq, and_true, true_and]
  exact map_keep_of_ne cs f _ (fun c' h => if_neg (by simp [h])) hcs

/-- Shape of a failed generation round against an existing active chat. -/
theorem gen_fail_shape (st : AppState) (p msg : String) (fr : FetchResult) (f cid : Nat)
    (hp : p ≠ "") (hactive : st.activeChatId = some cid)
    (hfr : outcome fr = Except.error msg) :
    genRound p fr f st =
      { st with prompt := p, isLoading := false, error := some (beforeBody msg),
                generatedCode := "// Error: " ++ msg } := by
  rcases hF : List.find? (fun ch => ch.id == cid) st.chats with _ | ac <;>
    simp only [genRound, generateStep, Bool.not_true, Bool.false_eq_true, if_false, hp, if_neg,
      hactive, hF, hfr]

/-- Shape of a successful first round: the chat is created and filled. -/
theorem gen_create_success_shape (st : AppState) (f : Nat) (p code : String) (fr : FetchResult)
    (hp : p ≠ "") (hfr : outcome fr = Except.ok code)
    (hactive : st.activeChatId = none) (hfresh : ∀ c ∈ st.chats, c.id ≠ f) :
    genRound p fr f st =
      { st with prompt := "", isLoading := false, error := none,
                generatedCode := cleanCode code, activeChatId := some f,
                chats := Chat.mk f (mkTitle p)
                  [Message.mk Role.user p, Message.mk Role.assistant (cleanCode code)]
                  :: st.chats } := by
  simp only [genRound, generateStep, Bool.not_true, Bool.false_eq_true, if_false, hp, if_neg,
    hactive, hfr, List.map_cons, beq_self_eq_true, if_true]
  simp only [List.append_assoc, List.cons_append, List.nil_append, AppState.mk.injEq,
    List.cons.injEq, and_true, true_and]
  exact map_keep_of_ne st.chats f _ (fun c' h => if_neg (by simp [h])) hfresh

/-- Shape of a failed first round: the chat is created empty. -/
theorem gen_create_fail_shape (st : AppState) (f : Nat) (p msg : String) (fr : FetchResult)
    (hp : p ≠ "") (hfr : outcome fr = Except.error msg)
    (hactive : st.activeChatId = none) :
    genRound p fr f st =
      { st with prompt := p, isLoading := false, error := some (beforeBody msg),
                generatedCode := "// Error: " ++ msg, activeChatId := some f,
                chats := Chat.mk f (mkTitle p) [] :: st.chats } := by
  simp only [genRound, generateStep, Bool.not_true, Bool.false_eq_true, if_false, hp, if_neg,
    hactive, hfr]

/-- Iterated successful rounds append their messages to the active chat and touch nothing else. -/
theorem runRounds_shape (rounds : List (String × String)) :
    ∀ (st : AppState) (c : Chat) (cs : List Chat) (f : Nat),
      st.activeChatId = some f → st.chats = c :: cs → c.id = f →
      (∀ c' ∈ cs, c'.id ≠ f) → (∀ r ∈ rounds, r.1 ≠ "" ∧ r.2 ≠ "") →
      (runRounds f rounds st).chats =
          { c with history := c.history ++ roundsMsgs rounds } :: cs ∧
        (runRounds f rounds st).activeChatId = some f := by
  induction rounds with
  | nil =>
    intro st c cs f hactive hchats _ _ _
    simp only [runRounds, roundsMsgs, List.append_nil]
    exact ⟨hchats, hactive⟩
  | cons r rest ih =>
    intro st c cs f hactive hchats hid hcs hrounds
    obtain ⟨p, code⟩ := r
    obtain ⟨hp, hcode⟩ := hrounds (p, code) (by simp)
    have hfr : outcome (FetchResult.resp 200 "" (some code)) = Except.ok code := by
      simp [outcome, hcode]
    have hstep := gen_success_shape st f c cs p code _ hp hfr hactive hchats hid hcs
    simp only [runRounds]
    rw [hstep]
    have := ih { st with prompt := "", isLoading := false, error := none,
                         generatedCode := cleanCode code,
                         chats := { c with history := c.history ++
                           [Message.mk Role.user p, Message.mk Role.assistant (cleanCode code)] } :: cs }
      { c with history := c.history ++
          [Message.mk Role.user p, Message.mk Role.assistant (cleanCode code)] }
      cs f hactive rfl hid hcs (fun r hr => hrounds r (by simp [hr]))
    rw [this.1, this.2]
    refine ⟨?_, rfl⟩
    simp [roundsMsgs, List.append_assoc]

/-- Each round contributes exactly two messages. -/
theorem roundsMsgs_length (rounds : List (String × String)) :
    (roundsMsgs rounds).length = 2 * rounds.length := by
  induction rounds with
  | nil => rfl
  | cons r rest ih =>
    obtain ⟨p, code⟩ := r
    simp only [roundsMsgs, List.length_cons, ih, List.length]
    omega

/-- The messages of a round sequence alternate user/assistant starting with user. -/
theorem altUA_roundsMsgs (rounds : List (String × String)) :
    altUA (roundsMsgs rounds) = true := by
  induction rounds with
  | nil => rfl
  | cons r rest ih =>
    obtain ⟨p, code⟩ := r
    simp [roundsMsgs, altUA, ih]

/-- String concatenation concatenates the character lists. -/
theorem data_append (a b : String) : (a ++ b).data = a.data ++ b.data := rfl

/-- The error placeholder is a line comment. -/
theorem startsWith_error_line (s : String) :
    strStartsWith ("// Error: " ++ s) "//" = true := by
  show ("//".data.isPrefixOf ("// Error: " ++ s).data) = true
  rw [data_append]
  simp [List.isPrefixOf]

/-- The loading flag is cleared on every exit path of a started round. -/
theorem gen_isLoading_false (st : AppState) (p : String) (f : Nat) (fr : FetchResult)
    (hp : p ≠ "") : (genRound p fr f st).isLoading = false := by
  simp only [genRound, generateStep, Bool.not_true, Bool.false_eq_true, if_false, hp, if_neg]

/-- The history-update map preserves every chat id and title. -/
theorem mem_map_update (l : List Chat) (cid : Nat) (h : List Message) :
    ∀ c' ∈ l.map (fun chat => if chat.id == cid then { chat with history := h } else chat),
      ∃ c ∈ l, c'.id = c.id ∧ c'.title = c.title := by
  intro c' hc'
  obtain ⟨c, hc, rfl⟩ := List.mem_map.1 hc'
  refine ⟨c, hc, ?_, ?_⟩ <;> by_cases hb : (c.id == cid) = true <;> simp [hb]

/-- Deletion filters the chat list, active or not. -/
theorem delete_chats_eq (st : AppState) (cid : Nat) :
    (handleDeleteChat cid st).chats = st.chats.filter (fun c => !(c.id == cid)) := by
  rw [handleDeleteChat]
  by_cases hb : st.activeChatId = some cid <;> simp [hb, handleNewChat]

/-- Deletion writes the filtered chat list to storage unconditionally. -/
theorem delete_storage_eq (st : AppState) (cid : Nat) :
    (handleDeleteChat cid st).storage = some (st.chats.filter (fun c => !(c.id == cid))) := by
  rw [handleDeleteChat]
  by_cases hb : st.activeChatId = some cid <;> simp [hb, handleNewChat]

/-- The history-update map preserves id membership tests. -/
theorem any_id_map_update (l : List Chat) (cid x : Nat) (h : List Message) :
    (l.map (fun chat => if chat.id == cid then { chat with history := h } else chat)).any
        (fun c => c.id == x) = l.any (fun c => c.id == x) := by
  induction l with
  | nil => rfl
  | cons a as ih =>
    rw [List.map_cons, List.any_cons, List.any_cons, ih]
    by_cases hb : (a.id == cid) = true
    · rw [if_pos hb]
    · rw [if_neg hb]

/-- The mount effect never changes the active chat pointer. -/
theorem startup_active (hash : String) (st : AppState) :
    (startupEffect hash st).activeChatId = st.activeChatId := by
  rw [startupEffect]
  by_cases hs : strStartsWith hash "#/share/"
  · simp only [if_pos hs]
    rcases hd : decode (strDrop hash 8) with _ | code
    · rfl
    · by_cases hc : code ≠ "" <;> simp [hc]
  · simp only [if_neg hs]
    rcases hst : st.storage with _ | l <;> simp [hst]

/-! ## Claim C1 -/

/-- C1: the Share Codec round-trips losslessly: for every text `x`
(multi-line text and markup special characters included), decoding the
token built by the share handler's compress-then-URL-encode transform
yields `x` back. -/
theorem C1_share_codec_roundtrip (x : String) : decode (encode x) = some x :=
  decode_encode x

/-! ## Claim C2 -/

/-- C2: after `N` successful generation rounds against one chat, counted from its
creation, the chat's history is exactly the concatenation of the rounds'
user/assistant pairs: it has length `2 * N`, alternates user, assistant, ...
starting with user, each round appends exactly one user and one assistant
message, and no other chat is mutated or reordered. -/
theorem C2_history_growth (st : AppState) (f : Nat) (c : Chat) (cs : List Chat)
    (rounds : List (String × String))
    (hactive : st.activeChatId = some f) (hchats : st.chats = c :: cs)
    (hid : c.id = f) (hhist : c.history = []) (hcs : ∀ c' ∈ cs, c'.id ≠ f)
    (hrounds : ∀ r ∈ rounds, r.1 ≠ "" ∧ r.2 ≠ "") :
    (runRounds f rounds st).chats = { c with history := roundsMsgs rounds } :: cs ∧
      (roundsMsgs rounds).length = 2 * rounds.length ∧
      altUA (roundsMsgs rounds) = true := by
  obtain ⟨h1, _⟩ := runRounds_shape rounds st c cs f hactive hchats hid hcs hrounds
  rw [hhist] at h1
  exact ⟨by simpa using h1, roundsMsgs_length rounds, altUA_roundsMsgs rounds⟩

/-- Witness for C2 at a concrete two-round run. -/
theorem C2_history_growth_witness :
    (runRounds 7 roundsC2 stC2).chats = { chatC2 with history := roundsMsgs roundsC2 } :: [] ∧
      (roundsMsgs roundsC2).length = 2 * roundsC2.length ∧
      altUA (roundsMsgs roundsC2) = true :=
  C2_history_growth stC2 7 chatC2 [] roundsC2 rfl rfl rfl rfl (by simp) (by decide)

/-! ## Claim C3 -/

/-- C3: a failed generation round (network error, non-2xx status, or missing or
empty completion) leaves the active chat's history and the whole chat list
unchanged, sets the displayed code to a commented error placeholder, records
the truncated error message, and leaves the loading flag false on every exit
path of the round. -/
theorem C3_failed_round (st : AppState) (p msg : String) (fr : FetchResult) (f cid : Nat)
    (hp : p ≠ "") (hactive : st.activeChatId = some cid)
    (hfr : outcome fr = Except.error msg) :
    (genRound p fr f st).chats = st.chats ∧
      (genRound p fr f st).generatedCode = "// Error: " ++ msg ∧
      strStartsWith (genRound p fr f st).generatedCode "//" = true ∧
      (genRound p fr f st).error = some (beforeBody msg) ∧
      (∀ fr' : FetchResult, (genRound p fr' f st).isLoading = false) := by
  have h := gen_fail_shape st p msg fr f cid hp hactive hfr
  rw [h]
  exact ⟨rfl, rfl, startsWith_error_line msg, rfl,
    fun fr' => gen_isLoading_false st p f fr' hp⟩

/-- Witness for C3 at a concrete HTTP 500 response. -/
theorem C3_failed_round_witness :
    (genRound "again" (FetchResult.resp 500 "rate limited" none) 9 stC3).chats = stC3.chats ∧
      (genRound "again" (FetchResult.resp 500 "rate limited" none) 9 stC3).generatedCode =
        "// Error: " ++ "API request failed with status: 500. Body: rate limited" ∧
      strStartsWith (genRound "again" (FetchResult.resp 500 "rate limited" none) 9 stC3).generatedCode "//" = true ∧
      (genRound "again" (FetchResult.resp 500 "rate limited" none) 9 stC3).error =
        some (beforeBody "API request failed with status: 500. Body: rate limited") ∧
      (∀ fr' : FetchResult, (genRound "again" fr' 9 stC3).isLoading = false) :=
  C3_failed_round stC3 "again" "API request failed with status: 500. Body: rate limited"
    (FetchResult.resp 500 "rate limited" none) 9 3 (by decide) rfl rfl

/-! ## Claim C4 -/

/-- C4: the title of a newly created chat is the prompt itself when its length is
at most 30, and the first 30 characters followed by an ellipsis marker
otherwise; the new chat carries exactly that title, and no operation ever
recomputes the title of an existing chat. -/
theorem C4_chat_title (p : String) (st : AppState) (f : Nat) (fr : FetchResult) (cid : Nat) :
    (p.length ≤ 30 → mkTitle p = p) ∧
    (30 < p.length → mkTitle p = strTake p 30 ++ "...") ∧
    (st.activeChatId = none → p ≠ "" → (∀ c ∈ st.chats, c.id ≠ f) →
      ∃ hist, (genRound p fr f st).chats.head? = some (Chat.mk f (mkTitle p) hist)) ∧
    (∀ c' ∈ (genRound p fr f st).chats,
      (∃ c ∈ st.chats, c'.id = c.id ∧ c'.title = c.title) ∨ c'.title = mkTitle p) ∧
    (handleSelectChat cid st).chats = st.chats ∧
    (handleNewChat st).chats = st.chats ∧
    (∀ c' ∈ (handleDeleteChat cid st).chats, c' ∈ st.chats) := by
  refine ⟨?_, ?_, ?_, ?_, ?_, rfl, ?_⟩
  · intro h
    rw [mkTitle, if_neg (by omega)]
  · intro h
    rw [mkTitle, if_pos (by omega)]
  · intro hactive hp hfresh
    rcases houtcome : outcome fr with msg | code
    · rw [gen_create_fail_shape st f p msg fr hp houtcome hactive]
      exact ⟨[], rfl⟩
    · rw [gen_create_success_shape st f p code fr hp houtcome hactive hfresh]
      exact ⟨_, rfl⟩
  · by_cases hp : p = ""
    · subst hp
      intro c' hm
      simp only [genRound, generateStep] at hm
      exact Or.inl ⟨c', by simpa using hm, rfl, rfl⟩
    · rcases hact : st.activeChatId with _ | acid
      · rcases houtcome : outcome fr with msg | code
        · rw [gen_create_fail_shape st f p msg fr hp houtcome hact]
          intro c' hm
          rcases List.mem_cons.1 hm with rfl | hm'
          · exact Or.inr rfl
          · exact Or.inl ⟨c', hm', rfl, rfl⟩
        · intro c' hm
          simp only [genRound, generateStep, Bool.not_true, Bool.false_eq_true, if_false, hp,
            if_neg, hact, houtcome, List.map_cons, beq_self_eq_true, if_true] at hm
          rcases List.mem_cons.1 hm with rfl | hm'
          · exact Or.inr rfl
          · exact Or.inl (mem_map_update st.chats f _ c' hm')
      · rcases houtcome : outcome fr with msg | code
        · rw [gen_fail_shape st p msg fr f acid hp hact houtcome]
          intro c' hm
          exact Or.inl ⟨c', hm, rfl, rfl⟩
        · rcases hF : List.find? (fun ch => ch.id == acid) st.chats with _ | ac <;>
            · intro c' hm
              simp only [genRound, generateStep, Bool.not_true, Bool.false_eq_true, if_false, hp,
                if_neg, hact, houtcome, hF] at hm
              exact Or.inl (mem_map_update st.chats acid _ c' hm)
  · rcases hF : List.find? (fun c => c.id == cid) st.chats with _ | ac <;>
      simp [handleSelectChat, hF]
  · intro c' hm
    rw [delete_chats_eq] at hm
    exact List.mem_of_mem_filter hm

/-- Witness for C4 at a short and a 31-character prompt. -/
theorem C4_chat_title_witness :
    mkTitle "Build a login form" = "Build a login form" ∧
      mkTitle "0123456789012345678901234567890" =
        strTake "0123456789012345678901234567890" 30 ++ "..." :=
  ⟨(C4_chat_title "Build a login form" (initState none) 1 (FetchResult.netErr "e") 0).1
      (by decide),
   (C4_chat_title "0123456789012345678901234567890" (initState none) 1
      (FetchResult.netErr "e") 0).2.1 (by decide)⟩

/-! ## Claim C6 -/

/-- C6 counterexample: persisting the session with an active chat and reloading
at startup restores the chats but not `activeChatId`: only the chat list is
serialized, so the claim that the entire Session (chats together with
`activeChatId`) is serialized and reloaded in full is false. -/
theorem C6_session_not_whole_counterexample :
    (persistEffect stC6).storage = some stC6.chats ∧
      stC6.activeChatId = some 0 ∧
      (startupEffect "" (initState (persistEffect stC6).storage)).chats = stC6.chats ∧
      (startupEffect "" (initState (persistEffect stC6).storage)).activeChatId = none := by
  decide

/-- C6 (amended): after every operation that changes the chat list the list alone
is written to storage (the render effect skips the write when the list is
empty; deletion writes unconditionally); selecting a chat writes nothing; at a
startup without a share fragment only the chat list is reloaded and
`activeChatId` starts unset. -/
theorem C6_chats_only_persistence :
    (∀ (hasKey : Bool) (f : Nat) (fr : FetchResult) (st : AppState),
      (generateStep hasKey f fr st).chats ≠ [] →
      (persistEffect (generateStep hasKey f fr st)).storage =
        some (generateStep hasKey f fr st).chats) ∧
      (∀ (cid : Nat) (st : AppState),
        (persistEffect (handleDeleteChat cid st)).storage =
          some (st.chats.filter (fun c => !(c.id == cid)))) ∧
      (∀ (cid : Nat) (st : AppState), (handleSelectChat cid st).storage = st.storage) ∧
      (∀ (sto : Option (List Chat)) (hash : String), strStartsWith hash "#/share/" = false →
        (startupEffect hash (initState sto)).chats = sto.getD [] ∧
          (startupEffect hash (initState sto)).activeChatId = none) := by
  refine ⟨?_, ?_, ?_, ?_⟩
  · intro hasKey f fr st h
    rw [persistEffect, if_pos (by simpa [List.length_pos] using h)]
  · intro cid st
    rw [persistEffect]
    by_cases hl : 0 < (handleDeleteChat cid st).chats.length
    · rw [if_pos hl]
      show some (handleDeleteChat cid st).chats = _
      rw [delete_chats_eq]
    · rw [if_neg hl, delete_storage_eq]
  · intro cid st
    rcases hF : List.find? (fun c => c.id == cid) st.chats with _ | chat <;>
      simp [handleSelectChat, hF]
  · intro sto hash hh
    rw [startupEffect, if_neg (by simp [hh])]
    rcases sto with _ | l <;> simp [initState]

/-- Witness for the amended C6 at concrete states. -/
theorem C6_chats_only_persistence_witness :
    (persistEffect (handleDeleteChat 1 stC6)).storage =
        some (stC6.chats.filter (fun c => !(c.id == 1))) ∧
      (startupEffect "" (initState (some [chatC6]))).chats = (some [chatC6]).getD [] :=
  ⟨C6_chats_only_persistence.2.1 1 stC6,
   (C6_chats_only_persistence.2.2.2 (some [chatC6]) "" (by decide)).1⟩

/-! ## Claim C7 -/

/-- C7: selecting a chat whose history contains an assistant message sets the
active pointer to that chat and the displayed code to the content of the most
recent assistant message: the history splits around a message carrying the
displayed content with no assistant message after it. -/
theorem C7_select_last_assistant (st : AppState) (cid : Nat) (c : Chat)
    (hfind : st.chats.find? (fun ch => ch.id == cid) = some c)
    (hassist : ∃ m ∈ c.history, m.role = Role.assistant) :
    (handleSelectChat cid st).activeChatId = some c.id ∧
      ∃ pre suf, c.history =
          pre ++ Message.mk Role.assistant (handleSelectChat cid st).generatedCode :: suf ∧
        ∀ x ∈ suf, x.role ≠ Role.assistant := by
  rcases hrev : c.history.reverse.find? (fun m => m.role == Role.assistant) with _ | m
  · exfalso
    rw [List.find?_eq_none] at hrev
    obtain ⟨m, hm, hrole⟩ := hassist
    exact hrev m (by simpa using hm) (by simp [hrole])
  · have hsel : handleSelectChat cid st =
        { st with activeChatId := some c.id, generatedCode := m.content } := by
      simp only [handleSelectChat, hfind, hrev]
    have hrev' := hrev
    rw [List.find?_eq_some] at hrev'
    obtain ⟨hp, as, bs, heq, hall⟩ := hrev'
    have hrole : m.role = Role.assistant := by simpa using hp
    have hhist : c.history = bs.reverse ++ m :: as.reverse := by
      have h2 := congrArg List.reverse heq
      simpa [List.reverse_append, List.append_assoc] using h2
    refine ⟨by rw [hsel], bs.reverse, as.reverse, ?_, ?_⟩
    · rw [hsel]
      have hm : Message.mk Role.assistant m.content = m := by
        cases m
        simp_all
      rw [hm]
      exact hhist
    · intro x hx
      have := hall x (by simpa using hx)
      simp only [Bool.not_eq_true'] at this
      simp only [beq_eq_false_iff_ne, ne_eq] at this
      exact this

/-- Witness for C7 at a chat with two assistant messages. -/
theorem C7_select_last_assistant_witness :
    (handleSelectChat 4 stC7).activeChatId = some chatC7.id ∧
      ∃ pre suf, chatC7.history =
          pre ++ Message.mk Role.assistant (handleSelectChat 4 stC7).generatedCode :: suf ∧
        ∀ x ∈ suf, x.role ≠ Role.assistant :=
  C7_select_last_assistant stC7 4 chatC7 (by decide) (by decide)

/-! ## Claim C8 -/

/-- C8: deleting the active chat removes it from the list, clears the active
pointer and resets the displayed code to the new-chat placeholder; deleting a
non-active chat removes only that chat and leaves the displayed code and the
active pointer unchanged. -/
theorem C8_delete_chat (st : AppState) (cid : Nat) :
    (st.activeChatId = some cid →
      (handleDeleteChat cid st).chats = st.chats.filter (fun c => !(c.id == cid)) ∧
        (handleDeleteChat cid st).activeChatId = none ∧
        (handleDeleteChat cid st).generatedCode =
          "// Start a new chat by typing a prompt or choosing an example.") ∧
      (st.activeChatId ≠ some cid →
        (handleDeleteChat cid st).chats = st.chats.filter (fun c => !(c.id == cid)) ∧
          (handleDeleteChat cid st).activeChatId = st.activeChatId ∧
          (handleDeleteChat cid st).generatedCode = st.generatedCode) ∧
      (∀ c, c ∈ (handleDeleteChat cid st).chats ↔ c ∈ st.chats ∧ c.id ≠ cid) := by
  refine ⟨?_, ?_, ?_⟩
  · intro h
    simp [handleDeleteChat, h, handleNewChat]
  · intro h
    simp [handleDeleteChat, h, handleNewChat]
  · intro c
    rw [delete_chats_eq, List.mem_filter]
    simp

/-- Witness for C8 deleting the active and a non-active chat. -/
theorem C8_delete_chat_witness :
    ((handleDeleteChat 1 stC8).chats = stC8.chats.filter (fun c => !(c.id == 1)) ∧
        (handleDeleteChat 1 stC8).activeChatId = none ∧
        (handleDeleteChat 1 stC8).generatedCode =
          "// Start a new chat by typing a prompt or choosing an example.") ∧
      ((handleDeleteChat 2 stC8).chats = stC8.chats.filter (fun c => !(c.id == 2)) ∧
        (handleDeleteChat 2 stC8).activeChatId = stC8.activeChatId ∧
        (handleDeleteChat 2 stC8).generatedCode = stC8.generatedCode) :=
  ⟨(C8_delete_chat stC8 1).1 rfl, (C8_delete_chat stC8 2).2.1 (by decide)⟩

/-! ## Claim C9 -/

/-- C9: the invariant that a set `activeChatId` always names a chat of the list
holds after any startup and is preserved by every session-mutating operation:
generation (chat creation included), selection, deletion, and starting a new
chat. -/
theorem C9_active_chat_invariant :
    (∀ (sto : Option (List Chat)) (hash : String),
      invariantB (startupEffect hash (initState sto)) = true) ∧
      (∀ st st', invariantB st = true → Step st st' → invariantB st' = true) := by
  constructor
  · intro sto hash
    rw [invariantB, startup_active]
    rfl
  · intro st st' hinv hstep
    cases hstep with
    | generate hasKey f fr st =>
      by_cases hk : hasKey
      · by_cases hp : st.prompt = ""
        · subst hk
          simp only [generateStep, Bool.not_true, Bool.false_eq_true, if_false, if_pos hp]
          exact hinv
        · subst hk
          rcases hact : st.activeChatId with _ | acid
        -- creation branch
          · rcases houtcome : outcome fr with msg | code
            · simp only [generateStep, Bool.not_true, Bool.false_eq_true, if_false, hp, if_neg,
                hact, houtcome, invariantB, List.any_cons, beq_self_eq_true, Bool.true_or]
            · simp only [generateStep, Bool.not_true, Bool.false_eq_true, if_false, hp, if_neg,
                hact, houtcome, invariantB, List.map_cons, beq_self_eq_true, if_true,
                List.any_cons, Bool.true_or]
          · rcases hF : List.find? (fun ch => ch.id == acid) st.chats with _ | ac <;>
              rcases houtcome : outcome fr with msg | code <;>
              simp only [generateStep, Bool.not_true, Bool.false_eq_true, if_false, hp, if_neg,
                hact, hF, houtcome, invariantB, any_id_map_update] <;>
              · rw [invariantB, hact] at hinv
                exact hinv
      · simp only [Bool.not_eq_true] at hk
        subst hk
        simp only [generateStep, Bool.not_false, if_true, invariantB]
        rw [invariantB] at hinv
        exact hinv
    | select cid st =>
      rcases hF : List.find? (fun c => c.id == cid) st.chats with _ | chat
      · simpa [handleSelectChat, hF] using hinv
      · have hmem := List.mem_of_find?_eq_some hF
        simp only [handleSelectChat, hF, invariantB]
        rw [List.any_eq_true]
        exact ⟨chat, hmem, by simp⟩
    | delete cid st =>
      by_cases hb : st.activeChatId = some cid
      · simp [handleDeleteChat, hb, handleNewChat, invariantB]
      · rcases hact : st.activeChatId with _ | a
        · simp [handleDeleteChat, hact, hb, handleNewChat, invariantB]
        · rw [invariantB, hact, List.any_eq_true] at hinv
          obtain ⟨c, hc, hcid⟩ := hinv
          have hane : a ≠ cid := fun h => hb (by rw [hact, h])
          have hne : (some a = some cid) = False := by simp [hane]
          simp only [handleDeleteChat, hact, hne, if_false, invariantB]
          rw [List.any_eq_true]
          have hcida : c.id = a := by simpa using hcid
          refine ⟨c, ?_, by simp [hcida]⟩
          rw [List.mem_filter]
          exact ⟨hc, by simp [hcida, hane]⟩
    | newChat st =>
      simp [handleNewChat, invariantB]

/-- Witness for C9 at a concrete selection step. -/
theorem C9_active_chat_invariant_witness :
    invariantB (handleSelectChat 5 stC9) = true :=
  C9_active_chat_invariant.2 stC9 (handleSelectChat 5 stC9) (by decide) (Step.select 5 stC9)

/-! ## Claim C10 -/

/-- C10: when the displayed code is empty or begins with the two characters
`//`, the copy handler writes nothing to the clipboard and changes nothing,
and the share handler produces no share link and only shows the
\"Nothing to share yet!\" toast; consequently `encode` is never invoked on
such text. -/
theorem C10_comment_guard (st : AppState) (origin pathname : String)
    (h : strStartsWith st.generatedCode "//" = true ∨ st.generatedCode = "") :
    (handleCopyClick st).2 = none ∧ (handleCopyClick st).1 = st ∧
      (handleShareClick origin pathname st).2 = none ∧
      (handleShareClick origin pathname st).1.toastMessage = "Nothing to share yet!" ∧
      (handleShareClick origin pathname st).1.showToast = true := by
  have hguard : (st.generatedCode = "" || strStartsWith st.generatedCode "//") = true := by
    rcases h with h | h <;> simp [h]
  simp [handleCopyClick, handleShareClick, hguard]

/-- Witness for C10 at the initial placeholder text. -/
theorem C10_comment_guard_witness :
    (handleCopyClick (initState none)).2 = none ∧ (handleCopyClick (initState none)).1 = initState none ∧
      (handleShareClick "https://x.test" "/app" (initState none)).2 = none ∧
      (handleShareClick "https://x.test" "/app" (initState none)).1.toastMessage = "Nothing to share yet!" ∧
      (handleShareClick "https://x.test" "/app" (initState none)).1.showToast = true :=
  C10_comment_guard (initState none) "https://x.test" "/app" (Or.inl (by decide))

/-! ## Claim C5 -/

/-- C5: decoding a fragment token not produced by `encode` fails softly
with the "no value" outcome, and the page-load integration then skips
loading shared content, leaving the whole application state unchanged
(no displayed code set, no toast shown). -/
theorem C5_decode_failure_soft (hash : String) (st : AppState)
    (hshare : strStartsWith hash "#/share/" = true)
    (hni : ¬ ∃ s, encode s = strDrop hash 8) :
    decode (strDrop hash 8) = none ∧ startupEffect hash st = st := by
  have hd : decode (strDrop hash 8) = none := by
    rcases h : decode (strDrop hash 8) with _ | s
    · rfl
    · exact absurd ⟨s, decode_spec _ s h⟩ hni
  refine ⟨hd, ?_⟩
  rw [startupEffect, if_pos hshare, hd]

/-- Witness for C5 at the concrete non-image token `!`. -/
theorem C5_decode_failure_soft_witness :
    decode (strDrop "#/share/!" 8) = none ∧
      startupEffect "#/share/!" (initState none) = initState none :=
  C5_decode_failure_soft "#/share/!" (initState none) (by decide)
    (fun ⟨s, hs⟩ => by
      have h := decode_encode s
      rw [hs] at h
      have hnone : decode (strDrop "#/share/!" 8) = none := by decide
      rw [hnone] at h
      exact Option.noConfusion h)

end FrontendGen
